import Mathlib

/-!
Verification of the Treasury analytics core of `src/tools.ts`.

The TypeScript core works on JavaScript `Date` values that, per the spec
(§4.1, §6), carry calendar dates without time-of-day.  We embed a date as a
triple (year, zero-based month, day-of-month), exactly the coordinates the
source manipulates through `getFullYear` / `getMonth` / `getDate` /
`setMonth` / `setDate`.  JavaScript compares `Date`s by their time value, so
date comparison is embedded as comparison of the linear day number `toDays`.
Floating-point arithmetic on prices, rates and day-count fractions is
embedded as exact rational arithmetic; `Math.exp` (transcendental, used only
inside NSS pricing) is passed around as an abstract function argument.
-/

namespace Treasury

/-- A calendar date as the source observes it through `getFullYear` (year),
`getMonth` (zero-based month) and `getDate` (day of month, 1-based). -/
structure JDate where
  year : Int
  month : Int
  day : Int
deriving DecidableEq, Repr

/-- Embedding of `daysInMonth` in `tools.ts`: `new Date(year, monthZeroBased + 1, 0).getDate()`,
i.e. the Gregorian month length, with February depending on leap years. -/
def daysInMonth (year monthZeroBased : Int) : Int :=
  if monthZeroBased = 1 then
    (if (year % 4 = 0 ∧ year % 100 ≠ 0) ∨ year % 400 = 0 then 29 else 28)
  else if monthZeroBased = 3 ∨ monthZeroBased = 5 ∨ monthZeroBased = 8 ∨ monthZeroBased = 10 then 30
  else 31

/-- A well-formed calendar date: month in `[0, 12)`, day in `[1, daysInMonth]`.
Every `Date` built by the JavaScript runtime from a real calendar date is of
this shape. -/
def Canon (d : JDate) : Prop :=
  0 ≤ d.month ∧ d.month < 12 ∧ 1 ≤ d.day ∧ d.day ≤ daysInMonth d.year d.month

instance (d : JDate) : Decidable (Canon d) := by
  unfold Canon; infer_instance

/-- ECMAScript `setMonth(month + months)` on a canonical date: the target
month is `month + months` normalised by floored division into year/month,
and a day-of-month that exceeds the target length of the target month rolls over into
the following month.  (For canonical inputs the overflow is at most
`31 - 28 = 3` days, so at most one month of rollover occurs, matching
`MakeDay`.) -/
def jsSetMonth (dt : JDate) (months : Int) : JDate :=
  let tm := dt.month + months
  let y1 := dt.year + tm / 12
  let m1 := tm % 12
  if dt.day ≤ daysInMonth y1 m1 then ⟨y1, m1, dt.day⟩
  else if m1 = 11 then ⟨y1 + 1, 0, dt.day - daysInMonth y1 m1⟩
  else ⟨y1, m1 + 1, dt.day - daysInMonth y1 m1⟩

/-- Embedding of `addMonthsEOM` in `tools.ts`: it remembers whether the source date is the
last day of its month (`isEOM`), performs `nd.setMonth(month + months)`,
and if `isEOM` forces the day to the last day of the month the normalised
result landed in (`nd.setDate(newDim)`). -/
def addMonthsEOM (d : JDate) (months : Int) : JDate :=
  let dim := daysInMonth d.year d.month
  let isEOM := d.day = dim
  let nd := jsSetMonth d months
  if isEOM then ⟨nd.year, nd.month, daysInMonth nd.year nd.month⟩ else nd

/-! ### Linear day numbering (the embedding of `Date.getTime`, in days) -/

/-- Days in years `[0, y)` of the proleptic Gregorian calendar (affine shift
of the JavaScript epoch time: order and differences are what matter). -/
def daysBeforeYear (y : Int) : Int :=
  365 * y + (y + 3) / 4 - (y + 99) / 100 + (y + 399) / 400

/-- Cumulative day count of the months before `m` in a non-leap year. -/
def monthOffset (m : Int) : Int :=
  if m = 0 then 0 else if m = 1 then 31 else if m = 2 then 59 else if m = 3 then 90
  else if m = 4 then 120 else if m = 5 then 151 else if m = 6 then 181
  else if m = 7 then 212 else if m = 8 then 243 else if m = 9 then 273
  else if m = 10 then 304 else 334

/-- Cumulative day count of the months before `m` in year `y`. -/
def daysBeforeMonth (y m : Int) : Int :=
  monthOffset m + (if 2 ≤ m ∧ ((y % 4 = 0 ∧ y % 100 ≠ 0) ∨ y % 400 = 0) then 1 else 0)

/-- Linear day number of a date (the day-resolution image of `getTime`). -/
def toDays (d : JDate) : Int :=
  daysBeforeYear d.year + daysBeforeMonth d.year d.month + d.day - 1

/-- Embedding of `daysBetween` in `tools.ts`: `(b.getTime() - a.getTime()) / msPerDay`,
which for date-only values is the signed difference of day numbers. -/
def daysBetween (a b : JDate) : Int :=
  toDays b - toDays a

/-- Linear month index of a date. -/
def muIdx (d : JDate) : Int := 12 * d.year + d.month

/-- Month length addressed by linear month index. -/
def dimIdx (t : Int) : Int := daysInMonth (t / 12) (t % 12)

/-- Day number of the first day of the month with linear index `t`. -/
def monthStart (t : Int) : Int :=
  daysBeforeYear (t / 12) + daysBeforeMonth (t / 12) (t % 12)

/-- The date with linear month index `t` and day-of-month `d`. -/
def mkIdx (t d : Int) : JDate := ⟨t / 12, t % 12, d⟩

/-! ### Arithmetic lemmas about the day numbering -/

theorem dim_lb (y m : Int) (h1 : 0 ≤ m) (h2 : m < 12) : 28 ≤ daysInMonth y m := by
  unfold daysInMonth; split_ifs <;> omega

theorem dim_ub (y m : Int) : daysInMonth y m ≤ 31 := by
  unfold daysInMonth; split_ifs <;> omega

theorem daysBeforeYear_succ (y : Int) :
    daysBeforeYear (y + 1) =
      daysBeforeYear y + (if (y % 4 = 0 ∧ y % 100 ≠ 0) ∨ y % 400 = 0 then 366 else 365) := by
  unfold daysBeforeYear; split_ifs <;> omega

theorem dimIdx_lb (t : Int) : 28 ≤ dimIdx t := by
  unfold dimIdx; exact dim_lb _ _ (by omega) (by omega)

theorem daysBeforeMonth_succ (y m : Int) (h1 : 0 ≤ m) (h2 : m < 11) :
    daysBeforeMonth y (m + 1) = daysBeforeMonth y m + daysInMonth y m := by
  have hm : m = 0 ∨ m = 1 ∨ m = 2 ∨ m = 3 ∨ m = 4 ∨ m = 5 ∨ m = 6 ∨ m = 7 ∨ m = 8 ∨
      m = 9 ∨ m = 10 := by omega
  rcases hm with rfl | rfl | rfl | rfl | rfl | rfl | rfl | rfl | rfl | rfl | rfl <;>
    · norm_num [daysBeforeMonth, monthOffset, daysInMonth]
      try split_ifs <;> omega

theorem dbm_zero (y : Int) : daysBeforeMonth y 0 = 0 := by
  norm_num [daysBeforeMonth, monthOffset]

theorem dbm_eleven (y : Int) :
    daysBeforeMonth y 11 = 334 + (if (y % 4 = 0 ∧ y % 100 ≠ 0) ∨ y % 400 = 0 then 1 else 0) := by
  norm_num [daysBeforeMonth, monthOffset]

theorem dim_eleven (y : Int) : daysInMonth y 11 = 31 := by
  norm_num [daysInMonth]

theorem monthStart_succ (t : Int) : monthStart (t + 1) = monthStart t + dimIdx t := by
  unfold monthStart dimIdx
  rcases eq_or_ne (t % 12) 11 with h | h
  · have h1 : (t + 1) / 12 = t / 12 + 1 := by omega
    have h2 : (t + 1) % 12 = 0 := by omega
    rw [h1, h2, h, daysBeforeYear_succ, dbm_zero, dbm_eleven, dim_eleven]
    split_ifs <;> omega
  · have h1 : (t + 1) / 12 = t / 12 := by omega
    have h2 : (t + 1) % 12 = t % 12 + 1 := by omega
    rw [h1, h2, daysBeforeMonth_succ _ _ (by omega) (by omega)]
    omega

theorem monthStart_add (t : Int) (n : ℕ) :
    monthStart t + 28 * n ≤ monthStart (t + n) := by
  induction n with
  | zero => simp
  | succ k ih =>
      have h2 : (28 : Int) ≤ dimIdx (t + (k : ℕ)) := dimIdx_lb _
      calc monthStart t + 28 * ((k + 1 : ℕ) : Int)
          = (monthStart t + 28 * (k : ℕ)) + 28 := by push_cast; ring
        _ ≤ monthStart (t + (k : ℕ)) + 28 := by omega
        _ ≤ monthStart (t + (k : ℕ)) + dimIdx (t + (k : ℕ)) := by omega
        _ = monthStart (t + (k : ℕ) + 1) := (monthStart_succ _).symm
        _ = monthStart (t + ((k + 1 : ℕ) : Int)) := by congr 1; push_cast; ring

theorem monthStart_le_of_le {s t : Int} (h : s ≤ t) : monthStart s ≤ monthStart t := by
  have hn : t = s + ((t - s).toNat : ℕ) := by omega
  have := monthStart_add s (t - s).toNat
  rw [← hn] at this
  omega

theorem toDays_mkIdx (t d : Int) : toDays (mkIdx t d) = monthStart t + d - 1 := by
  simp [toDays, mkIdx, monthStart]

theorem muIdx_mkIdx (t d : Int) : muIdx (mkIdx t d) = t := by
  simp only [muIdx, mkIdx]; omega

theorem dimIdx_muIdx (d : JDate) (h1 : 0 ≤ d.month) (h2 : d.month < 12) :
    dimIdx (muIdx d) = daysInMonth d.year d.month := by
  unfold dimIdx muIdx
  have hy : (12 * d.year + d.month) / 12 = d.year := by omega
  have hm : (12 * d.year + d.month) % 12 = d.month := by omega
  rw [hy, hm]

theorem toDays_eq_monthStart (d : JDate) (h1 : 0 ≤ d.month) (h2 : d.month < 12) :
    toDays d = monthStart (muIdx d) + d.day - 1 := by
  unfold toDays monthStart muIdx
  have hy : (12 * d.year + d.month) / 12 = d.year := by omega
  have hm : (12 * d.year + d.month) % 12 = d.month := by omega
  rw [hy, hm]

theorem canon_mkIdx (t d : Int) (h1 : 1 ≤ d) (h2 : d ≤ dimIdx t) : Canon (mkIdx t d) := by
  refine ⟨by simp [mkIdx]; omega, by simp [mkIdx]; omega, h1, ?_⟩
  simpa [mkIdx, dimIdx] using h2

/-- Dates in strictly earlier months have strictly smaller day numbers. -/
theorem toDays_lt_of_mu_lt {a b : JDate} (ha : Canon a) (hb : Canon b)
    (h : muIdx a < muIdx b) : toDays a < toDays b := by
  obtain ⟨ha1, ha2, ha3, ha4⟩ := ha
  obtain ⟨hb1, hb2, hb3, hb4⟩ := hb
  have hda : a.day ≤ dimIdx (muIdx a) := by rw [dimIdx_muIdx a ha1 ha2]; exact ha4
  have e1 : toDays a = monthStart (muIdx a) + a.day - 1 := toDays_eq_monthStart a ha1 ha2
  have e2 : toDays b = monthStart (muIdx b) + b.day - 1 := toDays_eq_monthStart b hb1 hb2
  have h3 : monthStart (muIdx a + 1) = monthStart (muIdx a) + dimIdx (muIdx a) :=
    monthStart_succ _
  have h4 : monthStart (muIdx a + 1) ≤ monthStart (muIdx b) := monthStart_le_of_le (by omega)
  omega

/-- Within a month, the day number is strictly monotone in the day. -/
theorem toDays_mono_day {a b : JDate} (hy : a.year = b.year) (hm : a.month = b.month)
    (hd : a.day ≤ b.day) : toDays a ≤ toDays b := by
  unfold toDays
  rw [hy, hm]
  omega

theorem dimIdx_ub (t : Int) : dimIdx t ≤ 31 := dim_ub _ _

/-! ### Structure of `addMonthsEOM` on canonical dates -/

/-- Normal form of `jsSetMonth`: either the day fits in the target month, or
it rolls over into the following month. -/
theorem jsSetMonth_shape (dt : JDate) (k : Int) (h1 : 0 ≤ dt.month) (h2 : dt.month < 12) :
    (dt.day ≤ dimIdx (muIdx dt + k) ∧ jsSetMonth dt k = mkIdx (muIdx dt + k) dt.day)
    ∨ (dimIdx (muIdx dt + k) < dt.day ∧
        jsSetMonth dt k = mkIdx (muIdx dt + k + 1) (dt.day - dimIdx (muIdx dt + k))) := by
  have hmu : muIdx dt + k = 12 * dt.year + dt.month + k := by unfold muIdx; ring
  rw [hmu]
  simp only [jsSetMonth, dimIdx, mkIdx]
  have e1 : dt.year + (dt.month + k) / 12 = (12 * dt.year + dt.month + k) / 12 := by omega
  have e2 : (dt.month + k) % 12 = (12 * dt.year + dt.month + k) % 12 := by omega
  rw [e1, e2]
  split_ifs with h3 h4
  · exact Or.inl ⟨h3, rfl⟩
  · refine Or.inr ⟨by omega, ?_⟩
    simp only [JDate.mk.injEq]
    refine ⟨by omega, by omega, trivial⟩
  · refine Or.inr ⟨by omega, ?_⟩
    simp only [JDate.mk.injEq]
    refine ⟨by omega, by omega, trivial⟩

/-- Normal form of `addMonthsEOM` on a canonical date: the result is a date
`mkIdx u d` whose month index `u` is the target month or (on day overflow)
the month after, whose day is in range, and which is never day-wise below
the source day unless the month rolled past the target. -/
theorem addMonthsEOM_form (dt : JDate) (k : Int) (hc : Canon dt) :
    ∃ u d, addMonthsEOM dt k = mkIdx u d ∧ 1 ≤ d ∧ d ≤ dimIdx u ∧
      (u = muIdx dt + k ∨ u = muIdx dt + k + 1) ∧
      (u = muIdx dt + k + 1 ∨ dt.day ≤ d) := by
  obtain ⟨hm1, hm2, hd1, hd2⟩ := hc
  have hub : dt.day ≤ 31 := le_trans hd2 (dim_ub _ _)
  simp only [addMonthsEOM]
  rcases jsSetMonth_shape dt k hm1 hm2 with ⟨hle, heq⟩ | ⟨hlt, heq⟩ <;> rw [heq] <;>
    split_ifs with hE
  · exact ⟨muIdx dt + k, dimIdx (muIdx dt + k),
      by simp [mkIdx, dimIdx], by have := dimIdx_lb (muIdx dt + k); omega,
      le_refl _, Or.inl rfl, Or.inr hle⟩
  · exact ⟨muIdx dt + k, dt.day, rfl, hd1, hle, Or.inl rfl, Or.inr (le_refl _)⟩
  · exact ⟨muIdx dt + k + 1, dimIdx (muIdx dt + k + 1),
      by simp [mkIdx, dimIdx], by have := dimIdx_lb (muIdx dt + k + 1); omega,
      le_refl _, Or.inr rfl, Or.inl rfl⟩
  · refine ⟨muIdx dt + k + 1, dt.day - dimIdx (muIdx dt + k), rfl, by omega, ?_,
      Or.inr rfl, Or.inl rfl⟩
    have := dimIdx_lb (muIdx dt + k)
    have := dimIdx_lb (muIdx dt + k + 1)
    omega

/-- The step `addMonthsEOM` preserves canonical dates. -/
theorem addMonthsEOM_canon (dt : JDate) (k : Int) (hc : Canon dt) :
    Canon (addMonthsEOM dt k) := by
  obtain ⟨u, d, heq, h1, h2, _, _⟩ := addMonthsEOM_form dt k hc
  rw [heq]
  exact canon_mkIdx u d h1 h2

/-- The month index moves by `k`, or by `k + 1` on a day overflow. -/
theorem muIdx_addMonthsEOM (dt : JDate) (k : Int) (hc : Canon dt) :
    muIdx (addMonthsEOM dt k) = muIdx dt + k ∨
      muIdx (addMonthsEOM dt k) = muIdx dt + k + 1 := by
  obtain ⟨u, d, heq, _, _, hu, _⟩ := addMonthsEOM_form dt k hc
  rw [heq, muIdx_mkIdx]
  exact hu

theorem toDays_lt_mkIdx (c : JDate) (hc : Canon c) (u d : Int) (hu : muIdx c < u)
    (hd : 1 ≤ d) : toDays c < toDays (mkIdx u d) := by
  have e1 := toDays_eq_monthStart c hc.1 hc.2.1
  have e2 := toDays_mkIdx u d
  have e3 := monthStart_succ (muIdx c)
  have e4 : monthStart (muIdx c + 1) ≤ monthStart u := monthStart_le_of_le (by omega)
  have e5 : c.day ≤ dimIdx (muIdx c) := by
    rw [dimIdx_muIdx c hc.1 hc.2.1]; exact hc.2.2.2
  omega

theorem toDays_mkIdx_lt (c : JDate) (hc : Canon c) (u d : Int) (hu : u < muIdx c)
    (hd : d ≤ dimIdx u) : toDays (mkIdx u d) < toDays c := by
  have e1 := toDays_eq_monthStart c hc.1 hc.2.1
  have e2 := toDays_mkIdx u d
  have e3 := monthStart_succ u
  have e4 : monthStart (u + 1) ≤ monthStart (muIdx c) := monthStart_le_of_le (by omega)
  have e5 : 1 ≤ c.day := hc.2.2.1
  omega

theorem toDays_le_mkIdx_same (c : JDate) (hc : Canon c) (d : Int) (hd : c.day ≤ d) :
    toDays c ≤ toDays (mkIdx (muIdx c) d) := by
  have e1 := toDays_eq_monthStart c hc.1 hc.2.1
  have e2 := toDays_mkIdx (muIdx c) d
  omega

/-- Key inequality behind `0 ≤ f ≤ 1`: stepping any number of months
backwards and then the same number forwards never lands strictly before the
original date (it can overshoot forwards because of end-of-month rollover,
but never backwards). -/
theorem toDays_le_roundTrip (c : JDate) (p : Int) (hc : Canon c) :
    toDays c ≤ toDays (addMonthsEOM (addMonthsEOM c (-p)) p) := by
  obtain ⟨ub, db, hb, hdb1, hdb2, hub, hbx⟩ := addMonthsEOM_form c (-p) hc
  obtain ⟨ug, dg, hg, hdg1, hdg2, hug, hgx⟩ :=
    addMonthsEOM_form (addMonthsEOM c (-p)) p (addMonthsEOM_canon c (-p) hc)
  rw [hb, muIdx_mkIdx] at hug hgx
  have hbday : (mkIdx ub db).day = db := rfl
  rw [hbday] at hgx
  rw [hg]
  rcases lt_or_le (muIdx c) ug with h | h
  · exact le_of_lt (toDays_lt_mkIdx c hc ug dg h hdg1)
  · have hueq : ug = muIdx c := by omega
    have hcd : c.day ≤ dg := by
      have h1 : ub = muIdx c + -p := by omega
      have h2 : c.day ≤ db := by omega
      have h3 : db ≤ dg := by omega
      omega
    rw [hueq]
    exact toDays_le_mkIdx_same c hc dg hcd

/-- Stepping backwards by two or more months strictly decreases the date. -/
theorem toDays_addMonthsEOM_lt (c : JDate) (k : Int) (hc : Canon c) (hk : k ≤ -2) :
    toDays (addMonthsEOM c k) < toDays c := by
  obtain ⟨u, d, heq, h1, h2, hu, _⟩ := addMonthsEOM_form c k hc
  rw [heq]
  exact toDays_mkIdx_lt c hc u d (by omega) h2

/-! ### Embedding of the remaining `tools.ts` helpers -/

/-- The hardcoded curve date of `tools.ts`: Nov 19, 2025. -/
def CURVE_DATE : JDate := ⟨2025, 10, 19⟩

/-- The date floor `new Date(1970, 0, 1)` used by the backward-walking loops. -/
def epochFloor : JDate := ⟨1970, 0, 1⟩

/-- The constant `DAYS_IN_YEAR = 365.25` of `tools.ts`. -/
def DAYS_IN_YEAR : ℚ := 365.25

/-- The calendar day after `d` (JavaScript `setDate(getDate() + 1)`). -/
def dayAfter (d : JDate) : JDate :=
  if d.day < daysInMonth d.year d.month then ⟨d.year, d.month, d.day + 1⟩
  else if d.month = 11 then ⟨d.year + 1, 0, 1⟩
  else ⟨d.year, d.month + 1, 1⟩

/-- JavaScript `getDay`: 0 = Sunday … 6 = Saturday.  The offset aligns the
linear day number with the epoch: Jan 1, 1970 was a Thursday (`getDay = 4`). -/
def dow (d : JDate) : Int := (toDays d + 6) % 7

/-- The `while (nd.getDay() === 0 || nd.getDay() === 6)` loop of
`nextBusinessDay`.  The loop body runs at most twice (Saturday → Sunday →
Monday), so any fuel ≥ 2 is exact. -/
def skipWeekend (d : JDate) : ℕ → JDate
  | 0 => d
  | fuel + 1 => if dow d = 0 ∨ dow d = 6 then skipWeekend (dayAfter d) fuel else d

/-- Embedding of `nextBusinessDay` in `tools.ts`: one calendar day forward, then skip
Saturdays and Sundays (no holiday calendar). -/
def nextBusinessDay (d : JDate) : JDate := skipWeekend (dayAfter d) 7

/-- Lower-casing of an ASCII character (the effect of
`String.prototype.toLowerCase` on the security-master text fields). -/
def lowerChar (c : Char) : Char :=
  if ('A' ≤ c ∧ c ≤ 'Z') then Char.ofNat (c.toNat + 32) else c

def toLowerStr (s : String) : List Char := s.data.map lowerChar

/-- Embedding of `String.prototype.includes`: `needle` occurs contiguously in `hay`. -/
def hasSub (needle hay : List Char) : Bool :=
  needle.isPrefixOf hay ||
    (match hay with
     | [] => false
     | _ :: t => hasSub needle t)

/-- The `{frequency, isBill}` value object returned by `getFrequencyPerYear`. -/
structure Freq where
  frequency : Int
  isBill : Bool
deriving DecidableEq, Repr

/-- Embedding of `getFrequencyPerYear` in `tools.ts`: case-insensitive substring
classification of security type / payment-frequency text. -/
def getFrequencyPerYear (securityType : String) (interestPaymentFrequency : Option String)
    (interestRate : ℚ) : Freq :=
  let typeLower := toLowerStr securityType
  let freqLower := toLowerStr (interestPaymentFrequency.getD (""))
  if hasSub (("bill").data) typeLower ∨ hasSub (("none").data) freqLower ∨ interestRate = 0 then
    ⟨0, true⟩
  else if hasSub (("semi").data) freqLower then ⟨2, false⟩
  else if hasSub (("quarter").data) freqLower then ⟨4, false⟩
  else if hasSub (("annual").data) freqLower ∨ hasSub (("year").data) freqLower then ⟨1, false⟩
  else if hasSub (("note").data) typeLower ∨ hasSub (("bond").data) typeLower then ⟨2, false⟩
  else ⟨2, false⟩

/-- A future cashflow per 100 notional, as in `tools.ts`. -/
structure Cashflow where
  date : JDate
  tYears : ℚ
  amount : ℚ
deriving DecidableEq, Repr

/-- The parameter object of `buildCashflowsForSecurity`. -/
structure CashflowParams where
  curveDate : JDate
  maturityDate : JDate
  interestRatePercent : ℚ
  frequencyPerYear : Int
  datedDate : Option JDate
  firstInterestPaymentDate : Option JDate
deriving DecidableEq, Repr

/-- The `while (true)` fallback of `buildCashflowsForSecurity` (lines
141–151): walk backward from maturity until the next step would land on or
before the module constant `CURVE_DATE` (note: *not* the `curveDate`
parameter) or on or before the 1970 floor.  Fuel-indexed; `none` means the
fuel ran out before the stop condition fired. -/
def fallbackFirstCoupon (maturityDate : JDate) (monthsPerPeriod : Int) : ℕ → Option JDate
  | 0 => none
  | fuel + 1 =>
    let prev := addMonthsEOM maturityDate (-monthsPerPeriod)
    if toDays prev ≤ toDays CURVE_DATE ∨ toDays prev ≤ toDays epochFloor then some maturityDate
    else fallbackFirstCoupon prev monthsPerPeriod fuel

/-- The same backward walk as the spec (§4.2 step 3) describes it: the
boundary is the *valuation date passed to the call*.  This is the
formalisation of what claim C7 asserts the code does, for comparison with
`fallbackFirstCoupon` (which hardwires `CURVE_DATE`). -/
def specFirstCouponWalk (valuationDate maturityDate : JDate) (monthsPerPeriod : Int) :
    ℕ → Option JDate
  | 0 => none
  | fuel + 1 =>
    let prev := addMonthsEOM maturityDate (-monthsPerPeriod)
    if toDays prev ≤ toDays valuationDate ∨ toDays prev ≤ toDays epochFloor then
      some maturityDate
    else specFirstCouponWalk valuationDate prev monthsPerPeriod fuel

/-- The emission loop of `buildCashflowsForSecurity` (lines 156–167): from
the first coupon date step forward one period at a time while on or before
maturity, emitting a coupon for every date strictly after the valuation
date, plus the face value on the date whose time value equals that of maturity. -/
def generateCashflows (curveDate maturityDate : JDate) (couponPerPeriod : ℚ)
    (monthsPerPeriod : Int) (cfDate : JDate) : ℕ → Option (List Cashflow)
  | 0 => none
  | fuel + 1 =>
    if toDays cfDate ≤ toDays maturityDate then
      match generateCashflows curveDate maturityDate couponPerPeriod monthsPerPeriod
          (addMonthsEOM cfDate monthsPerPeriod) fuel with
      | none => none
      | some rest =>
          if toDays curveDate < toDays cfDate then
            let tYears := ((daysBetween curveDate cfDate : ℚ)) / DAYS_IN_YEAR
            let amount := couponPerPeriod + (if toDays cfDate = toDays maturityDate then (100 : ℚ) else 0)
            some (⟨cfDate, tYears, amount⟩ :: rest)
          else some rest
    else some []

/-- The "Determine first coupon date" block of `buildCashflowsForSecurity`:
explicit first-coupon date, else one period forward from the dated date,
else the backward-walk fallback. -/
def firstCouponDate (params : CashflowParams) (fuel : ℕ) : Option JDate :=
  match params.firstInterestPaymentDate with
  | some fdt => some fdt
  | none =>
      match params.datedDate with
      | some dd => some (addMonthsEOM dd (12 / params.frequencyPerYear))
      | none => fallbackFirstCoupon params.maturityDate (12 / params.frequencyPerYear) fuel

/-- Embedding of `buildCashflowsForSecurity` in `tools.ts`.  `frequencyPerYear` is one of
1, 2, 4 at every call site (`monthsPerPeriod = 12 / frequencyPerYear` is
then exact integer division, as in the float source). -/
def buildCashflowsForSecurity (params : CashflowParams) (fuel : ℕ) : Option (List Cashflow) :=
  let couponPerPeriod := (100 * (params.interestRatePercent / 100)) / (params.frequencyPerYear : ℚ)
  let monthsPerPeriod := 12 / params.frequencyPerYear
  match firstCouponDate params fuel with
  | none => none
  | some fc => generateCashflows params.curveDate params.maturityDate couponPerPeriod
      monthsPerPeriod fc fuel

/-- The six NSS parameters `[beta0, beta1, beta2, beta3, tau1, tau2]`. -/
structure NssParams where
  beta0 : ℚ
  beta1 : ℚ
  beta2 : ℚ
  beta3 : ℚ
  tau1 : ℚ
  tau2 : ℚ
deriving DecidableEq, Repr

/-- Embedding of `nssYield` in `tools.ts`.  `e` is the exponential `x ↦ Math.exp(x)`,
passed as an abstract function (transcendental, so not given a computable
body); every occurrence of `Math.exp` in the source maps to an application
of `e`. -/
def nssYield (e : ℚ → ℚ) (tYears : ℚ) (params : NssParams) : ℚ :=
  if tYears ≤ 0 then params.beta0
  else
    let x1 := tYears / params.tau1
    let x2 := tYears / params.tau2
    let term1 := (1 - e (-x1)) / x1
    let term2 := term1 - e (-x1)
    let term3 := (1 - e (-x2)) / x2 - e (-x2)
    params.beta0 + params.beta1 * term1 + params.beta2 * term2 + params.beta3 * term3

/-- Embedding of `bondSquaredErrorFromNss` in `tools.ts`: squared gap between the dirty
price and the NSS present value of the cashflows. -/
def bondSquaredErrorFromNss (e : ℚ → ℚ) (params : NssParams) (dirtyPrice : ℚ)
    (cashflows : List Cashflow) : ℚ :=
  let pvNss := cashflows.foldl
    (fun acc cf => acc + cf.amount * e (-(nssYield e cf.tYears params) * cf.tYears)) 0
  (dirtyPrice - pvNss) * (dirtyPrice - pvNss)

/-- One joined row of `nov18_treasury_securities ⋈ additional_data_new`, the
record shape consumed by `buildCouponBonds`. -/
structure DbRow where
  cusip : String
  dirtyPrice : ℚ
  securityType : String
  securityTerm : String
  maturityDate : JDate
  interestRate : Option ℚ
  datedDate : Option JDate
  firstInterestPaymentDate : Option JDate
  interestPaymentFrequency : Option String
deriving DecidableEq, Repr

structure CouponBond where
  cusip : String
  dirtyPrice : ℚ
  cashflows : List Cashflow
deriving DecidableEq, Repr

/-- The per-row loop of `buildCouponBonds`: skip bills / zero-frequency /
zero-rate rows and rows with empty cashflow schedules, keep the rest. -/
def buildCouponBondsGo (fuel : ℕ) : List DbRow → Option (List CouponBond)
  | [] => some []
  | r :: rest =>
    let rate := r.interestRate.getD 0
    let fq := getFrequencyPerYear r.securityType r.interestPaymentFrequency rate
    if fq.isBill ∨ fq.frequency = 0 ∨ rate = 0 then buildCouponBondsGo fuel rest
    else
      match buildCashflowsForSecurity
          ⟨CURVE_DATE, r.maturityDate, rate, fq.frequency, r.datedDate,
            r.firstInterestPaymentDate⟩ fuel with
      | none => none
      | some cfs =>
          if cfs = [] then buildCouponBondsGo fuel rest
          else (buildCouponBondsGo fuel rest).map
            (fun bs => ⟨r.cusip, r.dirtyPrice, cfs⟩ :: bs)

/-- Embedding of `buildCouponBonds` in `tools.ts`.  The SQL `WHERE InterestRate IS NOT
NULL AND InterestRate > 0` becomes the filter; the rest is the JS loop. -/
def buildCouponBonds (rows : List DbRow) (fuel : ℕ) : Option (List CouponBond) :=
  buildCouponBondsGo fuel
    (rows.filter fun r =>
      match r.interestRate with
      | some q => decide (0 < q)
      | none => false)

/-- The result shape of the local Nelder–Mead driver (`opt.x`, `opt.fx`,
`opt.iterations`).  The optimiser itself (`./nelderMead`) is not part of
the repository sources, so it enters only as an abstract argument below. -/
structure OptResult where
  x : List ℚ
  fx : ℚ
  iterations : Option ℕ
deriving DecidableEq, Repr

structure NssFit where
  parameters : NssParams
  sse : ℚ
  iterations : Option ℕ
  bondsUsed : ℕ
deriving DecidableEq, Repr

def noBondsMsg : String := "No bonds with usable coupon schedules were found for NSS fit."

/-- The loss closure of `calibrateNssFromDb`: reparameterise
`tau = exp(lnTau)` and sum the squared bond errors.  (The wildcard arm is
unreachable for the 6-vectors the optimiser is given.) -/
def nssLoss (e : ℚ → ℚ) (bonds : List CouponBond) (theta : List ℚ) : ℚ :=
  match theta with
  | [b0, b1, b2, b3, lnTau1, lnTau2] =>
      let params : NssParams := ⟨b0, b1, b2, b3, e lnTau1, e lnTau2⟩
      bonds.foldl (fun acc bond =>
        acc + bondSquaredErrorFromNss e params bond.dirtyPrice bond.cashflows) 0
  | _ => 0

/-- Embedding of `calibrateNssFromDb` in `tools.ts`.  `e` embeds `Math.exp`, `lg` embeds
`Math.log` (both abstract), and `opt` embeds the imported `nelderMead`
minimiser. `Except.error` is the tagged `{error: ...}` return value.  (The
wildcard arm is unreachable: the optimiser returns a vector of the
dimension it was seeded with.) -/
def calibrateNssFromDb (e lg : ℚ → ℚ) (opt : (List ℚ → ℚ) → List ℚ → OptResult)
    (rows : List DbRow) (fuel : ℕ) : Option (Except String NssFit) :=
  match buildCouponBonds rows fuel with
  | none => none
  | some bonds =>
    if bonds.length = 0 then some (Except.error noBondsMsg)
    else
      let loss := nssLoss e bonds
      let theta0 : List ℚ := [0.04, -0.02, 0.02, 0.01, lg 1, lg 3]
      let res := opt loss theta0
      match res.x with
      | [b0, b1, b2, b3, lnTau1, lnTau2] =>
          some (Except.ok ⟨⟨b0, b1, b2, b3, e lnTau1, e lnTau2⟩, res.fx, res.iterations,
            bonds.length⟩)
      | _ => some (Except.ok ⟨⟨0, 0, 0, 0, 0, 0⟩, res.fx, res.iterations, bonds.length⟩)

/-- The coupon-bracket IIFE of `calculateTreasuryAnalytics` (lines 603–621):
walk backward from maturity until the previous coupon date falls on/before
settlement or on/before the 1970 floor; `last` is that previous date if it
is on/before settlement, otherwise the current date; `next` is one period
after `last`. -/
def bracketLoop (settlementDate : JDate) (monthsPerPeriod : Int) (current : JDate) :
    ℕ → Option (JDate × JDate)
  | 0 => none
  | fuel + 1 =>
    let previous := addMonthsEOM current (-monthsPerPeriod)
    if toDays previous ≤ toDays settlementDate ∨ toDays previous ≤ toDays epochFloor then
      let last := if toDays previous ≤ toDays settlementDate then previous else current
      some (last, addMonthsEOM last monthsPerPeriod)
    else bracketLoop settlementDate monthsPerPeriod previous fuel

/-- The price row of `nov18_treasury_securities` consumed by
`calculateTreasuryAnalytics` (only the end-of-day clean price feeds the
computation). -/
structure PriceRow where
  cusip : String
  cleanPrice : ℚ
deriving DecidableEq, Repr

/-- The security row of `additional_data_new`. -/
structure SecRow where
  cusip : String
  securityType : String
  securityTerm : String
  maturityDate : JDate
  interestRate : Option ℚ
  datedDate : Option JDate
  firstInterestPaymentDate : Option JDate
  interestPaymentFrequency : Option String
deriving DecidableEq, Repr

/-- The computed fields of the `calculateTreasuryAnalytics` result record
(the echoed identification fields are omitted; `isBill` is the
`dayCountDetails.isBill` tag, and the two day counts mirror
`dayCountDetails`). -/
structure AnalyticsResult where
  settlementDate : JDate
  cleanPricePer100 : ℚ
  accruedInterestPer100 : ℚ
  dirtyPricePer100 : ℚ
  f : ℚ
  isBill : Bool
  lastCouponDate : Option JDate
  nextCouponDate : Option JDate
  daysInPeriod : Int
  daysIntoPeriod : Int
deriving DecidableEq, Repr

/-- The pure core of `executions.calculateTreasuryAnalytics`, with the
settlement date as an explicit input (the source computes it from the wall
clock; see `calculateTreasuryAnalytics` below). -/
def calculateTreasuryAnalyticsAtSettlement (priceRow : PriceRow) (secRow : SecRow)
    (settlementDate : JDate) (fuel : ℕ) : Option AnalyticsResult :=
  let cleanPrice := priceRow.cleanPrice
  let maturityDate := secRow.maturityDate
  let annualCouponRate := (secRow.interestRate.getD 0) / 100
  let fq := getFrequencyPerYear secRow.securityType secRow.interestPaymentFrequency
    (secRow.interestRate.getD 0)
  if fq.isBill ∨ fq.frequency = 0 ∨ annualCouponRate = 0 then
    some ⟨settlementDate, cleanPrice, 0, cleanPrice, 0, true, none, none, 0, 0⟩
  else
    let couponPerPeriod := (100 * annualCouponRate) / (fq.frequency : ℚ)
    let monthsPerPeriod := 12 / fq.frequency
    match bracketLoop settlementDate monthsPerPeriod maturityDate fuel with
    | none => none
    | some (lastC, nextC) =>
        let daysInPeriod := daysBetween lastC nextC
        let daysIntoPeriod := daysBetween lastC settlementDate
        let f : ℚ := if daysInPeriod = 0 then 0 else (daysIntoPeriod : ℚ) / (daysInPeriod : ℚ)
        let accruedInterestPer100 := couponPerPeriod * f
        some ⟨settlementDate, cleanPrice, accruedInterestPer100,
          cleanPrice + accruedInterestPer100, f, false, some lastC, some nextC,
          daysInPeriod, daysIntoPeriod⟩

/-- Embedding of `executions.calculateTreasuryAnalytics`: the settlement date is the next
business day after `today`, which the source reads from the wall clock
(`new Date()`), an ambient input made explicit here. -/
def calculateTreasuryAnalytics (priceRow : PriceRow) (secRow : SecRow) (today : JDate)
    (fuel : ℕ) : Option AnalyticsResult :=
  calculateTreasuryAnalyticsAtSettlement priceRow secRow (nextBusinessDay today) fuel

/-! ### Invariants of the backward-walking loops -/

/-- When settlement is on/after the 1970 floor and on/before the start of the walk, a successful coupon bracket has `last ≤ settlement ≤ next`. -/
theorem bracketLoop_bounds (s : JDate) (mpp : Int) (hfs : toDays epochFloor ≤ toDays s) :
    ∀ (fuel : ℕ) (current lastC nextC : JDate), Canon current →
      toDays s ≤ toDays current →
      bracketLoop s mpp current fuel = some (lastC, nextC) →
      toDays lastC ≤ toDays s ∧ toDays s ≤ toDays nextC := by
  intro fuel
  induction fuel with
  | zero =>
      intro current lastC nextC _ _ h
      simp [bracketLoop] at h
  | succ k ih =>
      intro current lastC nextC hc hsc h
      simp only [bracketLoop] at h
      by_cases h1 : toDays (addMonthsEOM current (-mpp)) ≤ toDays s ∨
          toDays (addMonthsEOM current (-mpp)) ≤ toDays epochFloor
      · rw [if_pos h1] at h
        have h2 : toDays (addMonthsEOM current (-mpp)) ≤ toDays s := by
          rcases h1 with h1 | h1
          · exact h1
          · omega
        rw [if_pos h2] at h
        obtain ⟨e1, e2⟩ := Prod.mk.injEq .. ▸ (Option.some.injEq .. ▸ h)
        constructor
        · rw [← e1]; exact h2
        · rw [← e2]
          calc toDays s ≤ toDays current := hsc
            _ ≤ toDays (addMonthsEOM (addMonthsEOM current (-mpp)) mpp) :=
                toDays_le_roundTrip current mpp hc
      · rw [if_neg h1] at h
        push_neg at h1
        exact ih (addMonthsEOM current (-mpp)) lastC nextC
          (addMonthsEOM_canon current (-mpp) hc) (le_of_lt h1.1) h

/-- With enough fuel (two linear months of progress per iteration down to
the 1970 floor), the coupon-bracket walk reaches its stop condition. -/
theorem bracketLoop_terminates (s : JDate) (mpp : Int) (hm : mpp = 3 ∨ mpp = 6 ∨ mpp = 12) :
    ∀ (fuel : ℕ) (current : JDate), Canon current →
      muIdx current < muIdx epochFloor + 2 * fuel + 2 →
      (bracketLoop s mpp current (fuel + 1)).isSome = true := by
  intro fuel
  induction fuel with
  | zero =>
      intro current hc hmu
      have hprev := muIdx_addMonthsEOM current (-mpp) hc
      have hlt : muIdx (addMonthsEOM current (-mpp)) < muIdx epochFloor := by omega
      have : toDays (addMonthsEOM current (-mpp)) ≤ toDays epochFloor :=
        le_of_lt (toDays_lt_of_mu_lt (addMonthsEOM_canon current (-mpp) hc) (by decide) hlt)
      simp only [bracketLoop]
      rw [if_pos (Or.inr this)]
      rfl
  | succ k ih =>
      intro current hc hmu
      simp only [bracketLoop]
      by_cases h1 : toDays (addMonthsEOM current (-mpp)) ≤ toDays s ∨
          toDays (addMonthsEOM current (-mpp)) ≤ toDays epochFloor
      · rw [if_pos h1]; rfl
      · rw [if_neg h1]
        have hprev := muIdx_addMonthsEOM current (-mpp) hc
        exact ih (addMonthsEOM current (-mpp)) (addMonthsEOM_canon current (-mpp) hc) (by omega)

/-- Same termination argument for the first-coupon fallback walk. -/
theorem fallbackFirstCoupon_terminates (mpp : Int) (hm : mpp = 3 ∨ mpp = 6 ∨ mpp = 12) :
    ∀ (fuel : ℕ) (current : JDate), Canon current →
      muIdx current < muIdx epochFloor + 2 * fuel + 2 →
      (fallbackFirstCoupon current mpp (fuel + 1)).isSome = true := by
  intro fuel
  induction fuel with
  | zero =>
      intro current hc hmu
      have hprev := muIdx_addMonthsEOM current (-mpp) hc
      have hlt : muIdx (addMonthsEOM current (-mpp)) < muIdx epochFloor := by omega
      have : toDays (addMonthsEOM current (-mpp)) ≤ toDays epochFloor :=
        le_of_lt (toDays_lt_of_mu_lt (addMonthsEOM_canon current (-mpp) hc) (by decide) hlt)
      simp only [fallbackFirstCoupon]
      rw [if_pos (Or.inr this)]
      rfl
  | succ k ih =>
      intro current hc hmu
      simp only [fallbackFirstCoupon]
      by_cases h1 : toDays (addMonthsEOM current (-mpp)) ≤ toDays CURVE_DATE ∨
          toDays (addMonthsEOM current (-mpp)) ≤ toDays epochFloor
      · rw [if_pos h1]; rfl
      · rw [if_neg h1]
        have hprev := muIdx_addMonthsEOM current (-mpp) hc
        exact ih (addMonthsEOM current (-mpp)) (addMonthsEOM_canon current (-mpp) hc) (by omega)

/-- The fallback walk of the code is exactly the walk of the spec with the *module
constant* `CURVE_DATE` as the boundary. -/
theorem fallbackFirstCoupon_eq_specWalk (mpp : Int) :
    ∀ (fuel : ℕ) (m : JDate),
      fallbackFirstCoupon m mpp fuel = specFirstCouponWalk CURVE_DATE m mpp fuel := by
  intro fuel
  induction fuel with
  | zero => intro m; rfl
  | succ k ih =>
      intro m
      simp only [fallbackFirstCoupon, specFirstCouponWalk]
      split_ifs
      · rfl
      · exact ih (addMonthsEOM m (-mpp))

/-- Every cashflow emitted by the generation loop is strictly after the
valuation date, on/before maturity, and carries the coupon amount plus the
face value exactly when its time value equals that of maturity. -/
theorem generateCashflows_mem (curveDate maturity : JDate) (cpp : ℚ) (mpp : Int) :
    ∀ (fuel : ℕ) (start : JDate) (cfs : List Cashflow),
      generateCashflows curveDate maturity cpp mpp start fuel = some cfs →
      ∀ cf ∈ cfs,
        toDays curveDate < toDays cf.date ∧ toDays cf.date ≤ toDays maturity ∧
        ((toDays cf.date = toDays maturity ∧ cf.amount = cpp + 100) ∨
          (toDays cf.date ≠ toDays maturity ∧ cf.amount = cpp)) := by
  intro fuel
  induction fuel with
  | zero =>
      intro start cfs h
      simp [generateCashflows] at h
  | succ k ih =>
      intro start cfs h
      rcases hrest : generateCashflows curveDate maturity cpp mpp (addMonthsEOM start mpp) k
        with _ | rest
      · simp only [generateCashflows, hrest] at h
        by_cases h1 : toDays start ≤ toDays maturity
        · rw [if_pos h1] at h
          exact absurd h (by simp)
        · rw [if_neg h1] at h
          obtain rfl := (Option.some.inj h).symm
          intro cf hcf
          exact absurd hcf (List.not_mem_nil cf)
      · have htail := ih (addMonthsEOM start mpp) rest hrest
        simp only [generateCashflows, hrest] at h
        by_cases h1 : toDays start ≤ toDays maturity
        · rw [if_pos h1] at h
          by_cases h2 : toDays curveDate < toDays start
          · rw [if_pos h2] at h
            obtain rfl := (Option.some.inj h).symm
            intro cf hcf
            rcases List.mem_cons.mp hcf with rfl | hcf
            · refine ⟨h2, h1, ?_⟩
              by_cases h3 : toDays start = toDays maturity
              · refine Or.inl ⟨h3, ?_⟩
                show cpp + (if toDays start = toDays maturity then (100 : ℚ) else 0) = cpp + 100
                rw [if_pos h3]
              · refine Or.inr ⟨h3, ?_⟩
                show cpp + (if toDays start = toDays maturity then (100 : ℚ) else 0) = cpp
                rw [if_neg h3]
                ring
            · exact htail cf hcf
          · rw [if_neg h2] at h
            obtain rfl := (Option.some.inj h).symm
            exact htail
        · rw [if_neg h1] at h
          obtain rfl := (Option.some.inj h).symm
          intro cf hcf
          exact absurd hcf (List.not_mem_nil cf)
/-! ### Concrete inputs used by witnesses and counterexamples -/

/-- A bill security (classified as a bill via type text and frequency text). -/
def srBill : SecRow :=
  ⟨"912796XX1", "Bill", "13-Week", ⟨2026, 1, 10⟩, some 0, none, none, some ("None")⟩

def prBill : PriceRow := ⟨"912796XX1", 98⟩

/-- The `calculateTreasuryAnalytics` result for `srBill` (settlement Nov 20,
2025, next business day after Nov 19, 2025). -/
def rBill : AnalyticsResult := ⟨⟨2025, 10, 20⟩, 98, 0, 98, 0, true, none, none, 0, 0⟩

/-- A semi-annual note maturing Jan 15, 2026. -/
def srNote : SecRow :=
  ⟨"91282CAA1", "Note", "10-Year", ⟨2026, 0, 15⟩, some 4, some ⟨2016, 0, 15⟩, none,
    some ("Semi-Annual")⟩

def prNote : PriceRow := ⟨"91282CAA1", 98⟩

/-- The `calculateTreasuryAnalytics` result for `srNote` at settlement
Nov 20, 2025: coupon bracket [Jul 15, 2025, Jan 15, 2026], 128 days into a
184-day period. -/
def rNote : AnalyticsResult :=
  ⟨⟨2025, 10, 20⟩, 98,
    100 * ((4 : ℚ) / 100) / ((2 : Int) : ℚ) * (((128 : Int) : ℚ) / ((184 : Int) : ℚ)),
    98 + 100 * ((4 : ℚ) / 100) / ((2 : Int) : ℚ) * (((128 : Int) : ℚ) / ((184 : Int) : ℚ)),
    ((128 : Int) : ℚ) / ((184 : Int) : ℚ), false, some ⟨2025, 6, 15⟩, some ⟨2026, 0, 15⟩,
    184, 128⟩

/-- A (hypothetical but schema-valid) semi-annual note dated 1960, maturing
Jun 30, 1970 — used to exercise the 1970 date floor of the bracket walk. -/
def srOld : SecRow :=
  ⟨"OLD000001", "Note", "10-Year", ⟨1970, 5, 30⟩, some 4, some ⟨1960, 0, 1⟩, none,
    some ("Semi-Annual")⟩

def prOld : PriceRow := ⟨"OLD000001", 98⟩

/-- Cashflow parameters: maturity May 31, 2026, no schedule anchors, priced
at the curve date.  The backward grid from May 31 (an end-of-month date)
lands on Dec 31, 2025, and the forward walk from there jumps over maturity
(Dec 31 + 6 months = Jul 31, 2026), so the schedule never reaches it. -/
def pMay : CashflowParams := ⟨CURVE_DATE, ⟨2026, 4, 31⟩, 4, 2, none, none⟩

/-- Same security but priced for a valuation date of May 1, 2024 — the walk
still stops at the module constant `CURVE_DATE`, not at this date. -/
def pJul : CashflowParams := ⟨⟨2024, 4, 1⟩, ⟨2026, 4, 31⟩, 4, 2, none, none⟩

/-- Cashflow parameters whose implied schedule lands exactly on maturity
(Jan 15, 2026). -/
def pJan : CashflowParams := ⟨CURVE_DATE, ⟨2026, 0, 15⟩, 4, 2, none, none⟩

/-- The single cashflow of `pJan`: the maturity coupon plus face value. -/
def cfJan : Cashflow :=
  ⟨⟨2026, 0, 15⟩, ((57 : Int) : ℚ) / DAYS_IN_YEAR,
    100 * ((4 : ℚ) / 100) / ((2 : Int) : ℚ) + 100⟩

/-- A database row classified as a bill (skipped by `buildCouponBonds`). -/
def billRow : DbRow :=
  ⟨"B10000001", 99, "Treasury Bills", "13-Week", ⟨2026, 1, 10⟩, some 4, none, none,
    some ("None")⟩

/-! ### C1 — dirty price = clean price + accrued interest; bill branch -/

/-- C1: every successful result of `calculateTreasuryAnalytics` satisfies
`dirtyPricePer100 = cleanPricePer100 + accruedInterestPer100` exactly, and
a security classified as a bill yields zero accrued interest, dirty = clean
and `f = 0` regardless of the settlement date (`today` is arbitrary). -/
theorem dirtyPrice_eq_cleanPrice_add_accrued (pr : PriceRow) (sr : SecRow) (today : JDate)
    (fuel : ℕ) (r : AnalyticsResult)
    (h : calculateTreasuryAnalytics pr sr today fuel = some r) :
    r.dirtyPricePer100 = r.cleanPricePer100 + r.accruedInterestPer100 ∧
    ((getFrequencyPerYear sr.securityType sr.interestPaymentFrequency
        (sr.interestRate.getD 0)).isBill = true →
      r.accruedInterestPer100 = 0 ∧ r.dirtyPricePer100 = r.cleanPricePer100 ∧ r.f = 0) := by
  simp only [calculateTreasuryAnalytics, calculateTreasuryAnalyticsAtSettlement] at h
  by_cases hb : ((getFrequencyPerYear sr.securityType sr.interestPaymentFrequency
      (sr.interestRate.getD 0)).isBill = true ∨
      (getFrequencyPerYear sr.securityType sr.interestPaymentFrequency
        (sr.interestRate.getD 0)).frequency = 0 ∨ sr.interestRate.getD 0 / 100 = 0)
  · rw [if_pos hb] at h
    obtain rfl := (Option.some.inj h).symm
    exact ⟨by simp, fun _ => ⟨rfl, rfl, rfl⟩⟩
  · rw [if_neg hb] at h
    rcases hbr : bracketLoop (nextBusinessDay today)
        (12 / (getFrequencyPerYear sr.securityType sr.interestPaymentFrequency
          (sr.interestRate.getD 0)).frequency) sr.maturityDate fuel with _ | ⟨lastC, nextC⟩
    · rw [hbr] at h
      exact absurd h (by simp)
    · rw [hbr] at h
      obtain rfl := (Option.some.inj h).symm
      exact ⟨rfl, fun hbill => absurd (Or.inl hbill) hb⟩

theorem dirtyPrice_eq_cleanPrice_add_accrued_witness :
    calculateTreasuryAnalytics prBill srBill ⟨2025, 10, 19⟩ 1 = some rBill ∧
    rBill.dirtyPricePer100 = rBill.cleanPricePer100 + rBill.accruedInterestPer100 ∧
    (rBill.accruedInterestPer100 = 0 ∧ rBill.dirtyPricePer100 = rBill.cleanPricePer100 ∧
      rBill.f = 0) :=
  ⟨rfl, (dirtyPrice_eq_cleanPrice_add_accrued prBill srBill ⟨2025, 10, 19⟩ 1 rBill rfl).1,
    (dirtyPrice_eq_cleanPrice_add_accrued prBill srBill ⟨2025, 10, 19⟩ 1 rBill rfl).2
      (by decide)⟩

/-- Discharges the bill/zero-coupon branch condition for a concrete
coupon-bearing security row. -/
theorem calc_nonBill_cond (sr : SecRow)
    (hbill : (getFrequencyPerYear sr.securityType sr.interestPaymentFrequency
      (sr.interestRate.getD 0)).isBill = false)
    (hfreq : (getFrequencyPerYear sr.securityType sr.interestPaymentFrequency
      (sr.interestRate.getD 0)).frequency ≠ 0)
    (hrate : sr.interestRate.getD 0 / 100 ≠ (0 : ℚ)) :
    ¬((getFrequencyPerYear sr.securityType sr.interestPaymentFrequency
        (sr.interestRate.getD 0)).isBill = true ∨
      (getFrequencyPerYear sr.securityType sr.interestPaymentFrequency
        (sr.interestRate.getD 0)).frequency = 0 ∨
      sr.interestRate.getD 0 / 100 = 0) := by
  intro hcon
  rcases hcon with hcon | hcon | hcon
  · rw [hbill] at hcon
    exact absurd hcon (by simp)
  · exact hfreq hcon
  · exact hrate hcon

/-! ### C2 — 0 ≤ f ≤ 1 and the degenerate-schedule guard -/

/-- Bounds of the guarded ratio `f = daysIntoPeriod / daysInPeriod`. -/
theorem fGuard_bounds (a b : Int) (h0 : 0 ≤ a) (h1 : a ≤ b) :
    0 ≤ (if b = 0 then (0 : ℚ) else (a : ℚ) / (b : ℚ)) ∧
      (if b = 0 then (0 : ℚ) else (a : ℚ) / (b : ℚ)) ≤ 1 := by
  split_ifs with hz
  · norm_num
  · have hb : (0 : ℚ) < (b : ℚ) := by exact_mod_cast (by omega : 0 < b)
    constructor
    · exact div_nonneg (by exact_mod_cast h0) (le_of_lt hb)
    · rw [div_le_one hb]
      exact_mod_cast h1

/-- C2 (amended): for a canonical maturity and a canonical settlement date
that is **on or after the Jan 1, 1970 date floor** and on or before
maturity, every successful analytics result has `0 ≤ f ≤ 1`, and `f = 0`
whenever `daysInPeriod = 0` (the degenerate-schedule guard).  The date-floor
hypothesis is necessary: see the counterexample. -/
theorem dayCountFraction_bounds (pr : PriceRow) (sr : SecRow) (s : JDate) (fuel : ℕ)
    (r : AnalyticsResult) (hm : Canon sr.maturityDate) (hs : Canon s)
    (hfloor : toDays epochFloor ≤ toDays s) (hsm : toDays s ≤ toDays sr.maturityDate)
    (h : calculateTreasuryAnalyticsAtSettlement pr sr s fuel = some r) :
    0 ≤ r.f ∧ r.f ≤ 1 ∧ (r.daysInPeriod = 0 → r.f = 0) := by
  simp only [calculateTreasuryAnalyticsAtSettlement] at h
  by_cases hb : ((getFrequencyPerYear sr.securityType sr.interestPaymentFrequency
      (sr.interestRate.getD 0)).isBill = true ∨
      (getFrequencyPerYear sr.securityType sr.interestPaymentFrequency
        (sr.interestRate.getD 0)).frequency = 0 ∨ sr.interestRate.getD 0 / 100 = 0)
  · rw [if_pos hb] at h
    obtain rfl := (Option.some.inj h).symm
    exact ⟨le_refl 0, zero_le_one, fun _ => rfl⟩
  · rw [if_neg hb] at h
    rcases hbr : bracketLoop s
        (12 / (getFrequencyPerYear sr.securityType sr.interestPaymentFrequency
          (sr.interestRate.getD 0)).frequency) sr.maturityDate fuel with _ | ⟨lastC, nextC⟩
    · rw [hbr] at h
      exact absurd h (by simp)
    · rw [hbr] at h
      obtain rfl := (Option.some.inj h).symm
      obtain ⟨hlo, hhi⟩ := bracketLoop_bounds s _ hfloor fuel sr.maturityDate lastC nextC hm
        hsm hbr
      have h0 : 0 ≤ daysBetween lastC s := by unfold daysBetween; omega
      have h1 : daysBetween lastC s ≤ daysBetween lastC nextC := by unfold daysBetween; omega
      obtain ⟨g1, g2⟩ := fGuard_bounds (daysBetween lastC s) (daysBetween lastC nextC) h0 h1
      exact ⟨g1, g2, fun hz => if_pos hz⟩

/-- C2 counterexample: for a settlement date *before 1970* that still lies
between the dated date of the security (1960) and its maturity (Jun 30, 1970),
the walk stops at the 1970 floor with `last = current > settlement` and the
day-count fraction is negative, so `0 ≤ f` fails as stated. -/
theorem dayCountFraction_pre1970_counterexample :
    srOld.datedDate = some ⟨1960, 0, 1⟩ ∧
    toDays (⟨1960, 0, 1⟩ : JDate) ≤ toDays (⟨1965, 0, 1⟩ : JDate) ∧
    toDays (⟨1965, 0, 1⟩ : JDate) ≤ toDays srOld.maturityDate ∧
    ((calculateTreasuryAnalyticsAtSettlement prOld srOld ⟨1965, 0, 1⟩ 10).map
      AnalyticsResult.f).getD 0 < 0 := by
  refine ⟨rfl, by decide, by decide, ?_⟩
  have hcond := calc_nonBill_cond srOld (by decide) (by decide) (by norm_num [srOld])
  have hbr : bracketLoop ⟨1965, 0, 1⟩
      (12 / (getFrequencyPerYear srOld.securityType srOld.interestPaymentFrequency
        (srOld.interestRate.getD 0)).frequency) srOld.maturityDate 10 =
      some (⟨1970, 5, 30⟩, ⟨1970, 11, 31⟩) := by decide
  have e : (calculateTreasuryAnalyticsAtSettlement prOld srOld ⟨1965, 0, 1⟩ 10).map
      AnalyticsResult.f = some (((-2006 : Int) : ℚ) / ((184 : Int) : ℚ)) := by
    simp only [calculateTreasuryAnalyticsAtSettlement]
    rw [if_neg hcond, hbr]
    rfl
  rw [e]
  show ((-2006 : Int) : ℚ) / ((184 : Int) : ℚ) < 0
  norm_num

theorem dayCountFraction_bounds_witness :
    Canon srNote.maturityDate ∧ Canon (⟨2025, 10, 20⟩ : JDate) ∧
    toDays epochFloor ≤ toDays (⟨2025, 10, 20⟩ : JDate) ∧
    toDays (⟨2025, 10, 20⟩ : JDate) ≤ toDays srNote.maturityDate ∧
    (0 ≤ rNote.f ∧ rNote.f ≤ 1 ∧ (rNote.daysInPeriod = 0 → rNote.f = 0)) :=
  ⟨by decide, by decide, by decide, by decide,
    dayCountFraction_bounds prNote srNote ⟨2025, 10, 20⟩ 30 rNote (by decide) (by decide)
      (by decide) (by decide) (by
        have hcond := calc_nonBill_cond srNote (by decide) (by decide) (by norm_num [srNote])
        have hbr : bracketLoop ⟨2025, 10, 20⟩
            (12 / (getFrequencyPerYear srNote.securityType srNote.interestPaymentFrequency
              (srNote.interestRate.getD 0)).frequency) srNote.maturityDate 30 =
            some (⟨2025, 6, 15⟩, ⟨2026, 0, 15⟩) := by decide
        simp only [calculateTreasuryAnalyticsAtSettlement]
        rw [if_neg hcond, hbr]
        rfl)⟩

/-! ### C3 — end-of-month preservation of `addMonthsEOM` -/

/-- C3: the claim (and spec §8) say stepping Feb 29, 2024 forward 12 months
yields Feb 28, 2025 — the last day of the month 12 months later.  The code
instead lands on Mar 31, 2025: `setMonth(13)` turns Feb 29, 2025 into
Mar 1, 2025 (day overflow), and the end-of-month adjustment then snaps to
the end of *March*.  This theorem evaluates the code at the failing input. -/
theorem addMonthsEOM_feb29_overflow :
    addMonthsEOM ⟨2024, 1, 29⟩ 12 = ⟨2025, 2, 31⟩ ∧
    addMonthsEOM ⟨2024, 1, 29⟩ 12 ≠ ⟨2025, 1, 28⟩ := by
  refine ⟨by decide, by decide⟩

/-! ### C4 — Feb 28, 2023 + 12 months -/

/-- C4 counterexample: the claim (spec §8) expects Feb 28, 2024, but
Feb 28, 2023 is the last day of its month, so the end-of-month rule forces
the result to the last day of Feb 2024, which is Feb *29*, 2024 (leap
year) — exactly what the comment on the code itself advertises. -/
theorem addMonthsEOM_feb28_2023_counterexample :
    addMonthsEOM ⟨2023, 1, 28⟩ 12 ≠ ⟨2024, 1, 28⟩ := by decide

/-- C4 (amended): `addMonthsEOM` applied to Feb 28, 2023 with 12 months
yields Feb 29, 2024. -/
theorem addMonthsEOM_feb28_2023_amended :
    addMonthsEOM ⟨2023, 1, 28⟩ 12 = ⟨2024, 1, 29⟩ := by decide

/-! ### C5 — cashflow schedule invariants -/

/-- C5 (amended): every emitted cashflow is strictly after the valuation
date, on/before maturity, and strictly positive; a cashflow *whose date
equals maturity* carries the coupon plus the 100 face value.  (The original
claim — that the final cashflow always includes the face value — fails when
the implied schedule never lands on maturity; see the counterexample.) -/
theorem cashflows_invariants (p : CashflowParams) (fuel : ℕ) (cfs : List Cashflow)
    (hr : 0 < p.interestRatePercent) (hf : 0 < p.frequencyPerYear)
    (h : buildCashflowsForSecurity p fuel = some cfs) :
    ∀ cf ∈ cfs,
      toDays p.curveDate < toDays cf.date ∧ toDays cf.date ≤ toDays p.maturityDate ∧
      0 < cf.amount ∧
      (toDays cf.date = toDays p.maturityDate →
        cf.amount = 100 * (p.interestRatePercent / 100) / (p.frequencyPerYear : ℚ) + 100) := by
  have hq : (0 : ℚ) < (p.frequencyPerYear : ℚ) := by exact_mod_cast hf
  have hcpp : 0 < 100 * (p.interestRatePercent / 100) / (p.frequencyPerYear : ℚ) := by
    positivity
  simp only [buildCashflowsForSecurity] at h
  rcases hfc : firstCouponDate p fuel with _ | fc
  · rw [hfc] at h
    exact absurd h (by simp)
  · rw [hfc] at h
    have hmem := generateCashflows_mem p.curveDate p.maturityDate
      (100 * (p.interestRatePercent / 100) / (p.frequencyPerYear : ℚ))
      (12 / p.frequencyPerYear) fuel fc cfs h
    intro cf hcf
    obtain ⟨h1, h2, h3⟩ := hmem cf hcf
    refine ⟨h1, h2, ?_, ?_⟩
    · rcases h3 with ⟨_, ha⟩ | ⟨_, ha⟩ <;> rw [ha]
      · linarith
      · exact hcpp
    · intro hd
      rcases h3 with ⟨_, ha⟩ | ⟨hne, _⟩
      · exact ha
      · exact absurd hd hne

/-- C5 counterexample: a coupon-bearing security (4%, semi-annual) maturing
May 31, 2026 with no schedule anchors.  The implied schedule is the single
cashflow Dec 31, 2025 with amount 2 — the coupon only.  The final cashflow
does not include the 100 face value (the schedule never lands on maturity,
because forward-stepping from Dec 31 overshoots May 31 to Jul 31). -/
theorem cashflows_missing_redemption_counterexample :
    0 < pMay.interestRatePercent ∧ 0 < pMay.frequencyPerYear ∧
    ((buildCashflowsForSecurity pMay 50).getD []).map Cashflow.date = [⟨2025, 11, 31⟩] ∧
    ((buildCashflowsForSecurity pMay 50).getD []).map Cashflow.amount =
      [100 * ((4 : ℚ) / 100) / ((2 : Int) : ℚ) + 0] ∧
    100 * ((4 : ℚ) / 100) / ((2 : Int) : ℚ) + 0 < 100 := by
  refine ⟨by norm_num [pMay], by norm_num [pMay], by decide, rfl, by norm_num⟩

theorem cashflows_invariants_witness :
    0 < pJan.interestRatePercent ∧ 0 < pJan.frequencyPerYear ∧
    (toDays pJan.curveDate < toDays cfJan.date ∧
      toDays cfJan.date ≤ toDays pJan.maturityDate ∧ 0 < cfJan.amount ∧
      (toDays cfJan.date = toDays pJan.maturityDate →
        cfJan.amount =
          100 * (pJan.interestRatePercent / 100) / (pJan.frequencyPerYear : ℚ) + 100)) :=
  ⟨by norm_num [pJan], by norm_num [pJan],
    cashflows_invariants pJan 30 [cfJan] (by norm_num [pJan]) (by norm_num [pJan]) rfl
      cfJan (by simp)⟩

/-! ### C6 — the NSS spot-rate function -/

/-- C6: with strictly positive decay parameters, `nssYield` returns `beta0`
for `t ≤ 0` and the Nelson–Siegel–Svensson formula for `t > 0` (with
`x1 = t/tau1`, `x2 = t/tau2`, and `e` standing for `Math.exp`). -/
theorem nssYield_spec (e : ℚ → ℚ) (p : NssParams) (t : ℚ) (h1 : 0 < p.tau1)
    (h2 : 0 < p.tau2) :
    (t ≤ 0 → nssYield e t p = p.beta0) ∧
    (0 < t → nssYield e t p =
      p.beta0 + p.beta1 * ((1 - e (-(t / p.tau1))) / (t / p.tau1))
        + p.beta2 * (((1 - e (-(t / p.tau1))) / (t / p.tau1)) - e (-(t / p.tau1)))
        + p.beta3 * (((1 - e (-(t / p.tau2))) / (t / p.tau2)) - e (-(t / p.tau2)))) := by
  constructor
  · intro ht
    simp [nssYield, ht]
  · intro ht
    have hn : ¬ t ≤ 0 := not_le.mpr ht
    simp only [nssYield, if_neg hn]

theorem nssYield_spec_witness :
    (0 : ℚ) < 1 ∧ nssYield (fun _ => (1 : ℚ)) (-1) ⟨1, 2, 3, 4, 1, 1⟩ = 1 :=
  ⟨by norm_num,
    (nssYield_spec (fun _ => (1 : ℚ)) ⟨1, 2, 3, 4, 1, 1⟩ (-1) (by norm_num)
      (by norm_num)).1 (by norm_num)⟩

/-! ### C7 — which valuation date bounds the first-coupon fallback walk -/

/-- C7 counterexample: with valuation date May 1, 2024 passed as the
`curveDate` argument, the fallback in the code still stops against the module
constant `CURVE_DATE` (Nov 19, 2025) and returns Dec 31, 2025, while the
walk the claim describes (bounded by the passed valuation date) returns
Jul 31, 2024. -/
theorem firstCoupon_ignores_curveDate_counterexample :
    pJul.firstInterestPaymentDate = none ∧ pJul.datedDate = none ∧
    firstCouponDate pJul 40 = some ⟨2025, 11, 31⟩ ∧
    specFirstCouponWalk pJul.curveDate pJul.maturityDate (12 / pJul.frequencyPerYear) 40 =
      some ⟨2024, 6, 31⟩ ∧
    firstCouponDate pJul 40 ≠
      specFirstCouponWalk pJul.curveDate pJul.maturityDate (12 / pJul.frequencyPerYear) 40 := by
  exact ⟨rfl, rfl, by decide, by decide, by decide⟩

/-- C7 (amended): when neither a first-coupon date nor a dated date is
supplied, `buildCashflowsForSecurity` determines the first coupon date by
the backward walk bounded by the module constant `CURVE_DATE` (Nov 19,
2025) — not by the `curveDate` argument. -/
theorem firstCoupon_uses_module_curveDate (p : CashflowParams) (fuel : ℕ)
    (h1 : p.firstInterestPaymentDate = none) (h2 : p.datedDate = none) :
    firstCouponDate p fuel =
      specFirstCouponWalk CURVE_DATE p.maturityDate (12 / p.frequencyPerYear) fuel := by
  simp only [firstCouponDate, h1, h2]
  exact fallbackFirstCoupon_eq_specWalk _ fuel _

theorem firstCoupon_uses_module_curveDate_witness :
    firstCouponDate pJul 40 =
      specFirstCouponWalk CURVE_DATE pJul.maturityDate (12 / pJul.frequencyPerYear) 40 :=
  firstCoupon_uses_module_curveDate pJul 40 rfl rfl

/-! ### C8 — empty bond universe fails calibration without an NSS fit -/

/-- C8: if the coupon-bearing universe is empty, `calibrateNssFromDb`
returns the tagged error value, and the result does not depend on the
optimiser at all (hence the optimiser is never consulted).  The embedding
is a total function returning a tagged `Except` value: no exception crosses
the boundary. -/
theorem calibrateNss_empty_universe (e lg : ℚ → ℚ) (rows : List DbRow) (fuel : ℕ)
    (h : buildCouponBonds rows fuel = some []) :
    (∀ opt, calibrateNssFromDb e lg opt rows fuel = some (Except.error noBondsMsg)) ∧
    (∀ opt1 opt2, calibrateNssFromDb e lg opt1 rows fuel =
      calibrateNssFromDb e lg opt2 rows fuel) := by
  have hmain : ∀ opt, calibrateNssFromDb e lg opt rows fuel =
      some (Except.error noBondsMsg) := by
    intro opt
    simp [calibrateNssFromDb, h]
  exact ⟨hmain, fun o1 o2 => by rw [hmain o1, hmain o2]⟩

theorem calibrateNss_empty_universe_witness :
    calibrateNssFromDb (fun x => x) (fun x => x) (fun _ th => ⟨th, 0, none⟩) [billRow] 5 =
      some (Except.error noBondsMsg) :=
  (calibrateNss_empty_universe (fun x => x) (fun x => x) [billRow] 5 (by decide)).1 _

/-! ### C9 — dependence on the wall clock -/

/-- C9 counterexample: the same price row, security row (same CUSIP) and
fuel, invoked at two different wall-clock dates (Nov 19, 2025 and Dec 15,
2025), produce different day-count fractions (128/184 vs 154/184): the
result is *not* a pure function of the stored inputs plus the fixed curve
date — it also reads the current date. -/
theorem calcAnalytics_wallclock_counterexample :
    (calculateTreasuryAnalytics prNote srNote ⟨2025, 10, 19⟩ 30).map AnalyticsResult.f ≠
      (calculateTreasuryAnalytics prNote srNote ⟨2025, 11, 15⟩ 30).map AnalyticsResult.f := by
  have hcond := calc_nonBill_cond srNote (by decide) (by decide) (by norm_num [srNote])
  have e1 : (calculateTreasuryAnalytics prNote srNote ⟨2025, 10, 19⟩ 30).map
      AnalyticsResult.f = some (((128 : Int) : ℚ) / ((184 : Int) : ℚ)) := by
    have hbr : bracketLoop ⟨2025, 10, 20⟩
        (12 / (getFrequencyPerYear srNote.securityType srNote.interestPaymentFrequency
          (srNote.interestRate.getD 0)).frequency) srNote.maturityDate 30 =
        some (⟨2025, 6, 15⟩, ⟨2026, 0, 15⟩) := by decide
    simp only [calculateTreasuryAnalytics]
    rw [show nextBusinessDay ⟨2025, 10, 19⟩ = (⟨2025, 10, 20⟩ : JDate) from by decide]
    simp only [calculateTreasuryAnalyticsAtSettlement]
    rw [if_neg hcond, hbr]
    rfl
  have e2 : (calculateTreasuryAnalytics prNote srNote ⟨2025, 11, 15⟩ 30).map
      AnalyticsResult.f = some (((154 : Int) : ℚ) / ((184 : Int) : ℚ)) := by
    have hbr : bracketLoop ⟨2025, 11, 16⟩
        (12 / (getFrequencyPerYear srNote.securityType srNote.interestPaymentFrequency
          (srNote.interestRate.getD 0)).frequency) srNote.maturityDate 30 =
        some (⟨2025, 6, 15⟩, ⟨2026, 0, 15⟩) := by decide
    simp only [calculateTreasuryAnalytics]
    rw [show nextBusinessDay ⟨2025, 11, 15⟩ = (⟨2025, 11, 16⟩ : JDate) from by decide]
    simp only [calculateTreasuryAnalyticsAtSettlement]
    rw [if_neg hcond, hbr]
    rfl
  rw [e1, e2]
  simp only [ne_eq, Option.some.injEq]
  norm_num

/-- C9 (amended): `calculateTreasuryAnalytics` is a pure function of its
stored inputs, the fixed curve date *and the wall-clock date*: two
invocations whose clock readings yield the same settlement date (next
business day) return identical results. -/
theorem calcAnalytics_settlement_congr (pr : PriceRow) (sr : SecRow) (t1 t2 : JDate)
    (fuel : ℕ) (h : nextBusinessDay t1 = nextBusinessDay t2) :
    calculateTreasuryAnalytics pr sr t1 fuel = calculateTreasuryAnalytics pr sr t2 fuel := by
  unfold calculateTreasuryAnalytics
  rw [h]

theorem calcAnalytics_settlement_congr_witness :
    nextBusinessDay ⟨2025, 10, 21⟩ = nextBusinessDay ⟨2025, 10, 22⟩ ∧
    calculateTreasuryAnalytics prNote srNote ⟨2025, 10, 21⟩ 30 =
      calculateTreasuryAnalytics prNote srNote ⟨2025, 10, 22⟩ 30 :=
  ⟨by decide, calcAnalytics_settlement_congr prNote srNote ⟨2025, 10, 21⟩ ⟨2025, 10, 22⟩ 30
    (by decide)⟩

/-! ### C10 — termination of the backward walks -/

/-- C10: for periods-per-year in {1, 2, 4}, each backward step strictly
decreases the date, and both backward-walking loops (the coupon-bracket
search and the first-coupon fallback) reach their stop condition within an
explicit fuel bound: two linear months of progress per iteration down to
the 1970 floor. -/
theorem backwardWalks_terminate (ppy : Int) (hp : ppy = 1 ∨ ppy = 2 ∨ ppy = 4) :
    (∀ c, Canon c → toDays (addMonthsEOM c (-(12 / ppy))) < toDays c) ∧
    (∀ (s m : JDate) (fuel : ℕ), Canon m → muIdx m < muIdx epochFloor + 2 * fuel + 2 →
      (bracketLoop s (12 / ppy) m (fuel + 1)).isSome = true) ∧
    (∀ (m : JDate) (fuel : ℕ), Canon m → muIdx m < muIdx epochFloor + 2 * fuel + 2 →
      (fallbackFirstCoupon m (12 / ppy) (fuel + 1)).isSome = true) := by
  have hm : 12 / ppy = 3 ∨ 12 / ppy = 6 ∨ 12 / ppy = 12 := by
    rcases hp with rfl | rfl | rfl <;> norm_num
  refine ⟨fun c hc => toDays_addMonthsEOM_lt c _ hc (by omega), ?_, ?_⟩
  · exact fun s m fuel hcm hmu => bracketLoop_terminates s _ hm fuel m hcm hmu
  · exact fun m fuel hcm hmu => fallbackFirstCoupon_terminates _ hm fuel m hcm hmu

theorem backwardWalks_terminate_witness :
    toDays (addMonthsEOM ⟨2030, 5, 30⟩ (-(12 / 2))) < toDays ⟨2030, 5, 30⟩ ∧
    (bracketLoop ⟨2025, 10, 20⟩ (12 / 2) ⟨2030, 5, 30⟩ (1000 + 1)).isSome = true ∧
    (fallbackFirstCoupon ⟨2030, 5, 30⟩ (12 / 2) (1000 + 1)).isSome = true :=
  ⟨(backwardWalks_terminate 2 (by norm_num)).1 ⟨2030, 5, 30⟩ (by decide),
    (backwardWalks_terminate 2 (by norm_num)).2.1 ⟨2025, 10, 20⟩ ⟨2030, 5, 30⟩ 1000
      (by decide) (by decide),
    (backwardWalks_terminate 2 (by norm_num)).2.2 ⟨2030, 5, 30⟩ 1000 (by decide) (by decide)⟩

end Treasury
